import Mathlib

/-!
Shallow embedding of the reminder bot's scheduling core
(`src/send.py` and `src/time_parser.py`), with theorems checking the
natural-language specification against the code.

Modelling conventions:
* All computation happens in the single configured civil timezone
  (`Asia/Tokyo`, which has no DST transitions), so Python's aware-`datetime`
  instant comparison coincides with civil comparison; instants are measured
  by `DateTime.toMicros`.
* ISO-8601 timestamp strings are modelled by their `datetime.fromisoformat`
  image: the code only ever writes canonical `isoformat()` output and reads
  it back, so a parseable string is represented by the `DateTime` it denotes
  and an unparseable one by `none`.
* A piece of Python code that can raise an uncaught exception is embedded as
  a `PyResult`: `ok v` for a normal return, `exn` for a propagating
  exception (`ValueError` etc.).
* Python's year range 1..9999 is not modelled (years are unbounded `Int`);
  no claim concerns the range limit.
-/

/-- Civil date-time in the configured timezone, mirroring the fields of a
Python `datetime` object (`microsecond` shortened to `micro`). -/
structure DateTime where
  year : Int
  month : Nat
  day : Nat
  hour : Nat
  minute : Nat
  second : Nat
  micro : Nat
deriving Repr, DecidableEq

/-- Python `calendar.isleap` (also the rule `datetime` uses). -/
def isLeap (y : Int) : Bool :=
  y % 4 == 0 && (!(y % 100 == 0) || y % 400 == 0)

/-- Number of days in a month (`calendar.monthrange(y, m)[1]`); only used
with `1 ≤ m ≤ 12`. -/
def daysInMonth (y : Int) (m : Nat) : Nat :=
  if m = 2 then (if isLeap y then 29 else 28)
  else if m = 4 ∨ m = 6 ∨ m = 9 ∨ m = 11 then 30
  else 31

/-- A structurally valid datetime: exactly the field values Python's
`datetime` constructor accepts (ignoring the year range). -/
def DateTime.Valid (dt : DateTime) : Prop :=
  1 ≤ dt.month ∧ dt.month ≤ 12 ∧ 1 ≤ dt.day ∧ dt.day ≤ daysInMonth dt.year dt.month ∧
    dt.hour < 24 ∧ dt.minute < 60 ∧ dt.second < 60 ∧ dt.micro < 1000000

instance : DecidablePred DateTime.Valid := fun dt => by
  unfold DateTime.Valid; infer_instance

/-- Days elapsed since 1970-01-01 for a civil date (the standard
era/year-of-era civil-calendar formula; floor division throughout). -/
def dfc (y : Int) (m d : Nat) : Int :=
  let yp : Int := if m ≤ 2 then y - 1 else y
  let era : Int := yp / 400
  let yoe : Int := yp - era * 400
  let mp : Int := if m ≤ 2 then (m : Int) + 9 else (m : Int) - 3
  let doy : Int := (153 * mp + 2) / 5 + (d : Int) - 1
  era * 146097 + (yoe * 365 + yoe / 4 - yoe / 100 + doy) - 719468

/-- Day number of a `DateTime` (its civil date as days since the epoch). -/
def DateTime.days (dt : DateTime) : Int := dfc dt.year dt.month dt.day

/-- Python `dt.weekday()`: Monday = 0 .. Sunday = 6
(1970-01-01 was a Thursday, weekday 3). -/
def DateTime.weekday (dt : DateTime) : Int := (dt.days + 3) % 7

/-- Time of day in microseconds, mirroring how Python compares `time`
objects (lexicographic on hour, minute, second, microsecond). -/
def DateTime.todMicros (dt : DateTime) : Int :=
  ((((dt.hour * 60 + dt.minute) * 60 + dt.second) * 1000000 + dt.micro : Nat) : Int)

def microsPerDay : Int := 86400000000

/-- Microseconds since the epoch: the measure under which the code's
aware-`datetime` comparisons and subtractions are interpreted (the
configured zone has no DST, so civil and instant order agree). -/
def DateTime.toMicros (dt : DateTime) : Int := dt.days * microsPerDay + dt.todMicros

/-- Successor day on the civil calendar (time of day untouched). -/
def nextDay (dt : DateTime) : DateTime :=
  if dt.day < daysInMonth dt.year dt.month then { dt with day := dt.day + 1 }
  else if dt.month < 12 then { dt with month := dt.month + 1, day := 1 }
  else { dt with year := dt.year + 1, month := 1, day := 1 }

/-- Predecessor day on the civil calendar (time of day untouched). -/
def prevDay (dt : DateTime) : DateTime :=
  if 1 < dt.day then { dt with day := dt.day - 1 }
  else if 1 < dt.month then { dt with month := dt.month - 1, day := daysInMonth dt.year (dt.month - 1) }
  else { dt with year := dt.year - 1, month := 12, day := 31 }

def addDaysN : Nat → DateTime → DateTime
  | 0, dt => dt
  | n + 1, dt => addDaysN n (nextDay dt)

def subDaysN : Nat → DateTime → DateTime
  | 0, dt => dt
  | n + 1, dt => subDaysN n (prevDay dt)

/-- Python `dt + timedelta(days=i)`: shift by whole calendar days. -/
def addDaysI (i : Int) (dt : DateTime) : DateTime :=
  if 0 ≤ i then addDaysN i.toNat dt else subDaysN (-i).toNat dt

/-- Python `dt + timedelta(hours=n)` for `n ≥ 0`. -/
def addHoursN (n : Nat) (dt : DateTime) : DateTime :=
  addDaysN ((dt.hour + n) / 24) { dt with hour := (dt.hour + n) % 24 }

/-- Python `dt + timedelta(minutes=n)` for `n ≥ 0`. -/
def addMinutesN (n : Nat) (dt : DateTime) : DateTime :=
  addHoursN ((dt.minute + n) / 60) { dt with minute := (dt.minute + n) % 60 }

/-- Python `datetime(year, month, day, hour, minute, tzinfo=TZ)`: `some` on
success, `none` models the `ValueError` the callers catch. -/
def mkDateTime (y : Int) (m d h mi : Nat) : Option DateTime :=
  if 1 ≤ m ∧ m ≤ 12 ∧ 1 ≤ d ∧ d ≤ daysInMonth y m ∧ h < 24 ∧ mi < 60 then
    some ⟨y, m, d, h, mi, 0, 0⟩
  else none

/-- Python `dt.replace(year=y, month=m)` keeping day and time of day; the
replace re-validates the day against the new month (`ValueError` ↦ `none`). -/
def replaceYM (y : Int) (m : Nat) (dt : DateTime) : Option DateTime :=
  if 1 ≤ m ∧ m ≤ 12 ∧ 1 ≤ dt.day ∧ dt.day ≤ daysInMonth y m then
    some { dt with year := y, month := m }
  else none

/-- Python `dt.replace(year=y, month=m, day=d, hour=h, minute=mi, second=0,
microsecond=0)` with an `int` day from the schedule dict; validation as in
the `datetime` constructor (`ValueError` ↦ `none`). -/
def replaceYMDT (y : Int) (m : Nat) (d : Int) (h mi : Nat) (dt : DateTime) : Option DateTime :=
  if 1 ≤ m ∧ m ≤ 12 ∧ 1 ≤ d ∧ d ≤ (daysInMonth y m : Int) ∧ h < 24 ∧ mi < 60 then
    some { dt with year := y, month := m, day := d.toNat, hour := h, minute := mi,
                   second := 0, micro := 0 }
  else none

/-- Result of a piece of Python code: a normal return, or an uncaught
exception propagating to the caller. -/
inductive PyResult (α : Type) where
  | ok : α → PyResult α
  | exn : PyResult α
deriving Repr, DecidableEq

def isDigitChar (c : Char) : Bool := '0' ≤ c && c ≤ '9'

def digitVal (c : Char) : Nat := c.toNat - '0'.toNat

def spanDigits : List Char → List Char × List Char
  | [] => ([], [])
  | c :: cs =>
    if isDigitChar c then
      let (a, b) := spanDigits cs
      (c :: a, b)
    else ([], c :: cs)

def digitsToNat (ds : List Char) : Nat := ds.foldl (fun a c => a * 10 + digitVal c) 0

/-- Python `datetime.strptime(s, "%H:%M").time()`: one or two digits giving
an hour in 0..23, a colon, one or two digits giving a minute in 0..59, and
the whole string must be consumed. `none` models the `ValueError`. -/
def strptimeHM (s : String) : Option (Nat × Nat) :=
  match spanDigits s.toList with
  | (hd, ':' :: rest) =>
    match spanDigits rest with
    | (md, []) =>
      if 1 ≤ hd.length ∧ hd.length ≤ 2 ∧ 1 ≤ md.length ∧ md.length ≤ 2 then
        if digitsToNat hd < 24 ∧ digitsToNat md < 60 then
          some (digitsToNat hd, digitsToNat md)
        else none
      else none
    | _ => none
  | _ => none

/-- A schedule dictionary as stored in `reminders.json`. A missing key is
`none` (Python `.get` returns `None`); a missing `schedule` dict behaves
exactly like the all-`none` record, since every `.get` on `{}` is `None`.
`stype` is the `"type"` key. -/
structure Schedule where
  stype : Option String
  weekday : Option Int
  day : Option Int
  time : Option String
  run_at : Option DateTime
deriving Repr, DecidableEq

/-- A reminder dictionary. `next_run_at` distinguishes a missing/empty value
(`none`), a string `datetime.fromisoformat` rejects (`some none`), and a
parseable timestamp (`some (some dt)`). `archived_at` is absent (`none`)
until `append_to_archive` stamps it. -/
structure Reminder where
  id : String
  user_id : Option String
  text : Option String
  schedule : Schedule
  next_run_at : Option (Option DateTime)
  created_at : String
  status : Option String
  archived_at : Option DateTime
deriving Repr, DecidableEq

/-- `send.py calculate_next_run_at(schedule, current_run)`. `.exn` models an
uncaught `ValueError`: from `strptime` on a malformed `time`, or from a
`replace` in the monthly branch whose day is invalid for the target month. -/
def calculate_next_run_at (schedule : Schedule) (current_run : DateTime) : PyResult (Option DateTime) :=
  match schedule.stype with
  | some "once" => .ok none
  | some "weekly" =>
    match schedule.weekday, schedule.time with
    | some _, some time_str =>
      match strptimeHM time_str with
      | none => .exn
      | some (h, mi) =>
        let next_run := addDaysI 7 current_run
        .ok (some { next_run with hour := h, minute := mi, second := 0, micro := 0 })
    | _, _ => .ok none
  | some "monthly" =>
    match schedule.day, schedule.time with
    | some day, some time_str =>
      match strptimeHM time_str with
      | none => .exn
      | some (h, mi) =>
        let step1 :=
          if current_run.month = 12 then replaceYM (current_run.year + 1) 1 current_run
          else replaceYM current_run.year (current_run.month + 1) current_run
        match step1 with
        | none => .exn
        | some next_run =>
          match replaceYMDT next_run.year next_run.month day h mi next_run with
          | some nr => .ok (some nr)
          | none =>
            match (if next_run.month = 12 then
                     replaceYMDT (next_run.year + 1) 1 day h mi next_run
                   else replaceYMDT next_run.year (next_run.month + 1) day h mi next_run) with
            | some nr => .ok (some nr)
            | none => .exn
    | _, _ => .ok none
  | _ => .ok none

/-- Destination of one reminder inside `process_due_reminders`: appended to
`updated_reminders` (`keep`) or to `completed_reminders` (`done`). -/
inductive StepOut where
  | keep : Reminder → StepOut
  | done : Reminder → StepOut
deriving Repr, DecidableEq

/-- The loop body of `send.py process_due_reminders` for one reminder.
`notify` is the injected `send_line_push_message`; the returned `Nat` counts
how many notify calls the body made. `.exn` models an exception escaping the
loop body (there is no per-reminder handler around the schedule advance). -/
def processOne (notify : Option String → String → Bool) (current_time : DateTime)
    (r : Reminder) : PyResult (StepOut × Nat) :=
  if r.status ≠ some "pending" then .ok (.keep r, 0)
  else match r.next_run_at with
  | none => .ok (.keep r, 0)
  | some none => .ok (.keep r, 0)
  | some (some next_run_at) =>
    if next_run_at.toMicros ≤ current_time.toMicros then
      -- time_diff, text, message and success are single-use locals in the
      -- source; they are inlined here
      if 60 * 1000000 < current_time.toMicros - next_run_at.toMicros then
        .ok (.done { r with status := some "done" }, 0)
      else
        if notify r.user_id ("🔔 リマインダー\n" ++ r.text.getD "リマインダー") then
          if r.schedule.stype = some "once" then
            .ok (.done { r with status := some "done" }, 1)
          else
            match calculate_next_run_at r.schedule next_run_at with
            | .exn => .exn
            | .ok (some next_run) => .ok (.keep { r with next_run_at := some (some next_run) }, 1)
            | .ok none => .ok (.done { r with status := some "done" }, 1)
        else .ok (.keep r, 1)
    else .ok (.keep r, 0)

/-- `send.py process_due_reminders`, with the side effects made explicit:
returns `(updated_reminders, completed_reminders, total notify calls)`.
Python returns `updated_reminders` and hands `completed_reminders` to
`append_to_archive`; an uncaught exception (`.exn`) aborts the whole sweep,
so neither list is produced and nothing reaches the archive. -/
def process_due_reminders (notify : Option String → String → Bool)
    (current_time : DateTime) : List Reminder → PyResult (List Reminder × List Reminder × Nat)
  | [] => .ok ([], [], 0)
  | r :: rest =>
    match processOne notify current_time r with
    | .exn => .exn
    | .ok (out, n) =>
      match process_due_reminders notify current_time rest with
      | .exn => .exn
      | .ok (upd, comp, total) =>
        match out with
        | .keep r' => .ok (r' :: upd, comp, n + total)
        | .done r' => .ok (upd, r' :: comp, n + total)

/-- `send.py append_to_archive`: stamps each completed reminder with
`archived_at` (a fresh `get_current_time()` reading) and appends them to the
archive list. -/
def append_to_archive (archived_time : DateTime) (archive completed : List Reminder) : List Reminder :=
  archive ++ completed.map (fun r => { r with archived_at := some archived_time })

/-- The `while True` month search of `calculate_initial_run_at` (monthly
branch in `time_parser.py`), with explicit fuel. For `1 ≤ day ≤ 31` the
source loop returns within at most a few iterations, so the fuel is never
exhausted; for `day > 31` the source loop never terminates, which the fuel
turns into `.exn`. A `build_run` rejected by `replace` (possible only for
`day ≤ 0`) is the source's uncaught `ValueError`, i.e. `.exn`. -/
def monthlySearch (now : DateTime) (day : Int) (h mi : Nat) : Nat → Int → Nat → PyResult (Option DateTime)
  | 0, _, _ => .exn
  | fuel + 1, year, month =>
    let ym := if month + 1 > 12 then (year + 1, 1) else (year, month + 1)
    if day > (daysInMonth ym.1 ym.2 : Int) then monthlySearch now day h mi fuel ym.1 ym.2
    else match replaceYMDT ym.1 ym.2 day h mi now with
      | none => .exn
      | some candidate =>
        if now.toMicros < candidate.toMicros then .ok (some candidate)
        else monthlySearch now day h mi fuel ym.1 ym.2

/-- `time_parser.py calculate_initial_run_at(schedule)`, with the ambient
`get_current_time()` made an explicit `now` parameter. `.exn` models an
uncaught `ValueError` (malformed `time` string, or a monthly `day ≤ 0`). -/
def calculate_initial_run_at (now : DateTime) (schedule : Schedule) : PyResult (Option DateTime) :=
  match schedule.stype with
  | some "once" => .ok schedule.run_at
  | some "weekly" =>
    match schedule.weekday, schedule.time with
    | some weekday, some time_str =>
      match strptimeHM time_str with
      | none => .exn
      | some (h, mi) =>
        let target : Int := (((h * 60 + mi) * 60 * 1000000 : Nat) : Int)
        let d0 : Int := weekday - now.weekday
        let days_ahead : Int :=
          if d0 < 0 then d0 + 7
          else if d0 = 0 then (if target ≤ now.todMicros then 7 else 0)
          else d0
        let next_run := addDaysI days_ahead now
        .ok (some { next_run with hour := h, minute := mi, second := 0, micro := 0 })
    | _, _ => .ok none
  | some "monthly" =>
    match schedule.day, schedule.time with
    | some day, some time_str =>
      match strptimeHM time_str with
      | none => .exn
      | some (h, mi) =>
        if day ≤ (daysInMonth now.year now.month : Int) then
          match replaceYMDT now.year now.month day h mi now with
          | none => .exn
          | some candidate =>
            if now.toMicros < candidate.toMicros then .ok (some candidate)
            else monthlySearch now day h mi 10000 now.year now.month
        else monthlySearch now day h mi 10000 now.year now.month
    | _, _ => .ok none
  | _ => .ok none

/-- Whitespace for the regex class `\s` (Python `re` on `str`); the inputs
at issue only ever use the ASCII and ideographic spaces. -/
def isWsChar (c : Char) : Bool :=
  c = ' ' || c = '\t' || c = '\n' || c = '\r' || c = '\x0b' || c = '\x0c' || c = '　'

/-- The tail `\s*(.+)` of several source regexes: greedy whitespace, then a
nonempty capture; backtracking lets `.+` keep a final whitespace character
when nothing else is left. Returns the captured group. -/
def capRest (after : List Char) : Option (List Char) :=
  let tp := after.dropWhile isWsChar
  if tp.isEmpty then
    if after.isEmpty then none else some (after.drop (after.length - 1))
  else some tp

/-- The tail `\s+(.+)`: at least one whitespace character, then as in
`capRest`. -/
def capRest1 : List Char → Option (List Char)
  | [] => none
  | c :: rest => if isWsChar c then capRest rest else none

/-- Regex `(\d{1,2})` in continuation style: greedy two digits first,
backtracking to one if the rest of the regex fails. The continuation is
only ever the remainder of the regex, never a semantic validation. -/
def take12 {α : Type} (cs : List Char) (k : Nat → List Char → Option α) : Option α :=
  match cs with
  | c1 :: c2 :: rest =>
    if isDigitChar c1 then
      if isDigitChar c2 then
        match k (digitVal c1 * 10 + digitVal c2) rest with
        | some v => some v
        | none => k (digitVal c1) (c2 :: rest)
      else k (digitVal c1) (c2 :: rest)
    else none
  | [c1] => if isDigitChar c1 then k (digitVal c1) [] else none
  | [] => none

/-- Regex `(\d{1,2})` where everything after it in the pattern is optional,
so the greedy match never backtracks: returns the captured value and rest. -/
def take12g (cs : List Char) : Option (Nat × List Char) :=
  match cs with
  | c1 :: c2 :: rest =>
    if isDigitChar c1 then
      some (if isDigitChar c2 then (digitVal c1 * 10 + digitVal c2, rest)
            else (digitVal c1, c2 :: rest))
    else none
  | [c1] => if isDigitChar c1 then some (digitVal c1, []) else none
  | [] => none

/-- Regex `(\d{0,2})`: greedy up to two digits; an empty capture is the
source's `int(g) if g else 0`, so the value is 0. -/
def take02 (cs : List Char) : Nat × List Char :=
  match cs with
  | c1 :: c2 :: rest =>
    if isDigitChar c1 then
      if isDigitChar c2 then (digitVal c1 * 10 + digitVal c2, rest)
      else (digitVal c1, c2 :: rest)
    else (0, c1 :: c2 :: rest)
  | [c1] => if isDigitChar c1 then (digitVal c1, []) else (0, [c1])
  | [] => (0, [])

/-- Regex `(\d{4})`: exactly four digits (a fifth digit makes the following
literal fail, and a fixed-width group cannot backtrack). -/
def take4 {α : Type} (cs : List Char) (k : Nat → List Char → Option α) : Option α :=
  match cs with
  | a :: b :: c :: d :: rest =>
    if isDigitChar a ∧ isDigitChar b ∧ isDigitChar c ∧ isDigitChar d then
      k (digitsToNat [a, b, c, d]) rest
    else none
  | _ => none

/-- Regex `(\d+)` followed by a fixed non-digit literal: greedy, and no
shorter match can ever help since the dropped character would be a digit. -/
def takeDigits1 {α : Type} (cs : List Char) (k : Nat → List Char → Option α) : Option α :=
  match spanDigits cs with
  | ([], _) => none
  | (ds, rest) => k (digitsToNat ds) rest

/-- Range validation shared by the three branches of
`parse_time_with_ampm` (`validate` in the source). -/
def validateHM (h mi : Nat) : Option (Nat × Nat) :=
  if mi < 60 ∧ h < 24 then some (h, mi) else none

/-- `parse_time_with_ampm` in `time_parser.py`: three `re.match` shapes
(午後, 午前, plain `HH:MM`/`HH時MM分`), each followed by the range
validation; a shape match with failing validation returns `none` without
trying later shapes, and trailing characters are ignored as `re.match`
does. -/
def parse_time_with_ampm (cs : List Char) : Option (Nat × Nat) :=
  match cs with
  | '午' :: '後' :: rest =>
    match take12g (rest.dropWhile isWsChar) with
    | none => none
    | some (hr, rest2) =>
      let rest3 := if rest2.head? = some '時' then rest2.drop 1 else rest2
      let (mi, _) := take02 rest3
      validateHM (if hr ≠ 12 then hr + 12 else hr) mi
  | '午' :: '前' :: rest =>
    match take12g (rest.dropWhile isWsChar) with
    | none => none
    | some (hr, rest2) =>
      let rest3 := if rest2.head? = some '時' then rest2.drop 1 else rest2
      let (mi, _) := take02 rest3
      validateHM (if hr = 12 then 0 else hr) mi
  | _ =>
    match take12 cs (fun hr rest2 =>
      match rest2 with
      | c :: rest3 => if c = '時' ∨ c = ':' then some (hr, rest3) else none
      | [] => none) with
    | some (hr, rest3) =>
      let (mi, _) := take02 rest3
      validateHM hr mi
    | none => none

/-- `get_weekday_number`: the dictionary of recognized weekday spellings. -/
def weekdayNum (wd : List Char) : Option Int :=
  if wd = ['月'] ∨ wd = ['月', '曜'] ∨ wd = ['月', '曜', '日'] then some 0
  else if wd = ['火'] ∨ wd = ['火', '曜'] ∨ wd = ['火', '曜', '日'] then some 1
  else if wd = ['水'] ∨ wd = ['水', '曜'] ∨ wd = ['水', '曜', '日'] then some 2
  else if wd = ['木'] ∨ wd = ['木', '曜'] ∨ wd = ['木', '曜', '日'] then some 3
  else if wd = ['金'] ∨ wd = ['金', '曜'] ∨ wd = ['金', '曜', '日'] then some 4
  else if wd = ['土'] ∨ wd = ['土', '曜'] ∨ wd = ['土', '曜', '日'] then some 5
  else if wd = ['日'] ∨ wd = ['日', '曜'] ∨ wd = ['日', '曜', '日'] then some 6
  else none

/-- The capture `([月火水木金土日]曜?日?)\s*(.+)` shared by patterns 1
(毎週) and 3 (来週), after their two-character prefixes and leading `\s*`:
returns the weekday text and the time-part capture, with the optional 曜/日
tried greedily and backtracked if the nonempty tail cannot match. -/
def matchWdTime (cs0 : List Char) : Option (List Char × List Char) :=
  match cs0.dropWhile isWsChar with
  | [] => none
  | c :: rest =>
    if c = '月' ∨ c = '火' ∨ c = '水' ∨ c = '木' ∨ c = '金' ∨ c = '土' ∨ c = '日' then
      let try1 : Option (List Char × List Char) :=
        match rest with
        | '曜' :: rest2 =>
          (match rest2 with
           | '日' :: rest3 =>
             (match capRest rest3 with
              | some tp => some ([c, '曜', '日'], tp)
              | none =>
                match capRest rest2 with
                | some tp => some ([c, '曜'], tp)
                | none => none)
           | _ =>
             match capRest rest2 with
             | some tp => some ([c, '曜'], tp)
             | none => none)
        | _ => none
      match try1 with
      | some v => some v
      | none =>
        match rest with
        | '日' :: rest3 =>
          (match capRest rest3 with
           | some tp => some ([c, '日'], tp)
           | none =>
             match capRest rest with
             | some tp => some ([c], tp)
             | none => none)
        | _ =>
          match capRest rest with
          | some tp => some ([c], tp)
          | none => none
    else none

/-- The `日?\s*(.+)` tail of pattern 2 (毎月): optional 日 tried greedily. -/
def dayThenTime (after : List Char) : Option (List Char) :=
  match after with
  | '日' :: rest =>
    (match capRest rest with
     | some tp => some tp
     | none => capRest after)
  | _ => capRest after

/-- Python `s.replace("の", "")` used on the captured time parts of
patterns 4, 5 and 6. -/
def removeNo (cs : List Char) : List Char := cs.filter (fun c => c ≠ 'の')

/-- Python `s.strip()`. -/
def stripChars (cs : List Char) : List Char :=
  ((cs.dropWhile isWsChar).reverse.dropWhile isWsChar).reverse

def pad2 (n : Nat) : String := if n < 10 then "0" ++ toString n else toString n

/-- Python f-string `f"{hour:02d}:{minute:02d}"`. -/
def fmtHM (h mi : Nat) : String := pad2 h ++ ":" ++ pad2 mi

/-- A `{"type": "once", "run_at": ...}` schedule dict. -/
def mkOnce (dt : DateTime) : Schedule := ⟨some "once", none, none, none, some dt⟩

/-- Replace hour and minute, zeroing seconds and microseconds: Python
`dt.replace(hour=h, minute=mi, second=0, microsecond=0)` (the parser only
calls it with regex-validated `h < 24`, `mi < 60`). -/
def withHM (dt : DateTime) (h mi : Nat) : DateTime :=
  { dt with hour := h, minute := mi, second := 0, micro := 0 }

/-!
Each pattern function below returns `none` when its regex does not match
(the source falls through to the next pattern) and `some r` when it
matches, where `r` is the final result of `parse_natural_time`
(`some schedule`, or `none` for a failed semantic validation — the source
returns `None` without trying later patterns). The human-readable
description the source builds alongside the schedule is not modelled; no
claim mentions it.
-/

/-- Pattern 0a: `(\d+)分後`, 1..1440 minutes from now. -/
def pat0a (now : DateTime) (cs : List Char) : Option (Option Schedule) :=
  takeDigits1 cs (fun n rest =>
    if rest.take 2 = ['分', '後'] then
      some (if n = 0 ∨ n > 1440 then none else some (mkOnce (addMinutesN n now)))
    else none)

/-- Pattern 0b: `(\d+)時間後`, 1..168 hours from now. -/
def pat0b (now : DateTime) (cs : List Char) : Option (Option Schedule) :=
  takeDigits1 cs (fun n rest =>
    if rest.take 3 = ['時', '間', '後'] then
      some (if n = 0 ∨ n > 168 then none else some (mkOnce (addHoursN n now)))
    else none)

/-- Pattern 0c: `(\d+)日後\s+(.+)`, 1..365 days from now at a given time. -/
def pat0c (now : DateTime) (cs : List Char) : Option (Option Schedule) :=
  takeDigits1 cs (fun n rest =>
    if rest.take 2 = ['日', '後'] then
      match capRest1 (rest.drop 2) with
      | some tp =>
        some (if n = 0 ∨ n > 365 then none
              else match parse_time_with_ampm tp with
                | none => none
                | some (h, mi) => some (mkOnce (withHM (addDaysN n now) h mi)))
      | none => none
    else none)

/-- Pattern 0d: `(\d+)日後$`, 1..365 days from now at 09:00. -/
def pat0d (now : DateTime) (cs : List Char) : Option (Option Schedule) :=
  takeDigits1 cs (fun n rest =>
    if rest = ['日', '後'] then
      some (if n = 0 ∨ n > 365 then none
            else some (mkOnce (withHM (addDaysN n now) 9 0)))
    else none)

/-- Pattern 1: `毎週\s*([月火水木金土日]曜?日?)\s*(.+)`, a weekly schedule. -/
def pat1 (cs : List Char) : Option (Option Schedule) :=
  if cs.take 2 = ['毎', '週'] then
    match matchWdTime (cs.drop 2) with
    | none => none
    | some (wd, tp) =>
      some (match weekdayNum wd with
        | none => none
        | some w =>
          match parse_time_with_ampm tp with
          | none => none
          | some (h, mi) => some ⟨some "weekly", some w, none, some (fmtHM h mi), none⟩)
  else none

/-- Pattern 2: `毎月\s*(\d{1,2})日?\s*(.+)`, a monthly schedule. -/
def pat2 (cs : List Char) : Option (Option Schedule) :=
  if cs.take 2 = ['毎', '月'] then
    match take12 ((cs.drop 2).dropWhile isWsChar) (fun d rest =>
      match dayThenTime rest with
      | some tp => some (d, tp)
      | none => none) with
    | none => none
    | some (d, tp) =>
      some (if d < 1 ∨ 31 < d then none
        else match parse_time_with_ampm tp with
          | none => none
          | some (h, mi) => some ⟨some "monthly", none, some (d : Int), some (fmtHM h mi), none⟩)
  else none

/-- Pattern 3: `来週\s*([月火水木金土日]曜?日?)\s*(.+)`; the target date is
`now + (weekday - now.weekday() + 7)` days. -/
def pat3 (now : DateTime) (cs : List Char) : Option (Option Schedule) :=
  if cs.take 2 = ['来', '週'] then
    match matchWdTime (cs.drop 2) with
    | none => none
    | some (wd, tp) =>
      some (match weekdayNum wd with
        | none => none
        | some w =>
          match parse_time_with_ampm tp with
          | none => none
          | some (h, mi) =>
            let days_ahead : Int := w - now.weekday + 7
            some (mkOnce (withHM (addDaysI days_ahead now) h mi)))
  else none

/-- Pattern 4: `明後日\s*(.+)`, two days ahead at the given time (the
captured part has `の` removed and is stripped before time parsing). -/
def pat4 (now : DateTime) (cs : List Char) : Option (Option Schedule) :=
  if cs.take 3 = ['明', '後', '日'] then
    match capRest (cs.drop 3) with
    | none => none
    | some tp0 =>
      some (match parse_time_with_ampm (stripChars (removeNo tp0)) with
        | none => none
        | some (h, mi) => some (mkOnce (withHM (addDaysN 2 now) h mi)))
  else none

/-- Pattern 5: `明日\s*(.+)`, one day ahead at the given time. -/
def pat5 (now : DateTime) (cs : List Char) : Option (Option Schedule) :=
  if cs.take 2 = ['明', '日'] then
    match capRest (cs.drop 2) with
    | none => none
    | some tp0 =>
      some (match parse_time_with_ampm (stripChars (removeNo tp0)) with
        | none => none
        | some (h, mi) => some (mkOnce (withHM (addDaysN 1 now) h mi)))
  else none

/-- Pattern 6: `今日\s*(.+)`, today at the given time, rolled forward one
day if that instant is not strictly in the future. -/
def pat6 (now : DateTime) (cs : List Char) : Option (Option Schedule) :=
  if cs.take 2 = ['今', '日'] then
    match capRest (cs.drop 2) with
    | none => none
    | some tp0 =>
      some (match parse_time_with_ampm (stripChars (removeNo tp0)) with
        | none => none
        | some (h, mi) =>
          let target := withHM now h mi
          some (mkOnce (if target.toMicros ≤ now.toMicros then addDaysN 1 target else target)))
  else none

/-- Pattern 7: a bare time of day, with the same roll-forward rule as
pattern 6; when the time sub-parser fails the source falls through to the
date patterns. -/
def pat7 (now : DateTime) (cs : List Char) : Option (Option Schedule) :=
  match parse_time_with_ampm cs with
  | none => none
  | some (h, mi) =>
    let target := withHM now h mi
    some (some (mkOnce (if target.toMicros ≤ now.toMicros then addDaysN 1 target else target)))

/-- The regex of pattern 8: `(\d{4})-(\d{1,2})-(\d{1,2})$`. -/
def match8 (cs : List Char) : Option (Nat × Nat × Nat) :=
  take4 cs (fun y rest =>
    match rest with
    | '-' :: r1 =>
      take12 r1 (fun m r2 =>
        match r2 with
        | '-' :: r3 => take12 r3 (fun d r4 => if r4 = [] then some (y, m, d) else none)
        | _ => none)
    | _ => none)

/-- Pattern 8: a bare dashed date at 09:00; no past-instant and no max-year
check. -/
def pat8 (cs : List Char) : Option (Option Schedule) :=
  match match8 cs with
  | none => none
  | some (y, m, d) =>
    some (match mkDateTime (y : Int) m d 9 0 with
      | none => none
      | some t => some (mkOnce t))

/-- The shared body of patterns 9 and 10: a year-less date at 09:00 in the
current year, rolled to the next year when the instant has already passed;
a `ValueError` from either construction fails the parse. -/
def yearlessDate (now : DateTime) (m d : Nat) : Option Schedule :=
  match mkDateTime now.year m d 9 0 with
  | none => none
  | some t =>
    if t.toMicros ≤ now.toMicros then
      match mkDateTime (now.year + 1) m d 9 0 with
      | none => none
      | some t2 => some (mkOnce t2)
    else some (mkOnce t)

/-- The regex of pattern 9: `(\d{1,2})/(\d{1,2})$`. -/
def match9 (cs : List Char) : Option (Nat × Nat) :=
  take12 cs (fun m r1 =>
    match r1 with
    | '/' :: r2 => take12 r2 (fun d r3 => if r3 = [] then some (m, d) else none)
    | _ => none)

/-- Pattern 9: a year-less slashed date at 09:00 with the rollover check. -/
def pat9 (now : DateTime) (cs : List Char) : Option (Option Schedule) :=
  match match9 cs with
  | none => none
  | some (m, d) => some (yearlessDate now m d)

/-- The regex of pattern 10: `(\d{1,2})月(\d{1,2})日?$`. -/
def match10 (cs : List Char) : Option (Nat × Nat) :=
  take12 cs (fun m r1 =>
    match r1 with
    | '月' :: r2 =>
      take12 r2 (fun d r3 =>
        match r3 with
        | [] => some (m, d)
        | ['日'] => some (m, d)
        | _ => none)
    | _ => none)

/-- Pattern 10: a year-less 月/日 date at 09:00 with the rollover check. -/
def pat10 (now : DateTime) (cs : List Char) : Option (Option Schedule) :=
  match match10 cs with
  | none => none
  | some (m, d) => some (yearlessDate now m d)

/-- The regex of pattern 11: `(\d{4})年\s*(\d{1,2})月\s*(\d{1,2})日?$`. -/
def match11 (cs : List Char) : Option (Nat × Nat × Nat) :=
  take4 cs (fun y rest =>
    match rest with
    | '年' :: r1 =>
      take12 (r1.dropWhile isWsChar) (fun m r2 =>
        match r2 with
        | '月' :: r3 =>
          take12 (r3.dropWhile isWsChar) (fun d r4 =>
            match r4 with
            | [] => some (y, m, d)
            | ['日'] => some (y, m, d)
            | _ => none)
        | _ => none)
    | _ => none)

/-- Pattern 11: the dated form at 09:00; unlike patterns 8-10 it applies
both the max-year check and the `is_past_time` check (strict <). -/
def pat11 (now : DateTime) (cs : List Char) : Option (Option Schedule) :=
  match match11 cs with
  | none => none
  | some (y, m, d) =>
    some (if (y : Int) > now.year + 5 then none
      else match mkDateTime (y : Int) m d 9 0 with
        | none => none
        | some t => if t.toMicros < now.toMicros then none else some (mkOnce t))

/-- Pattern 12: `(\d{4})年\s*(\d{1,2})月\s*(\d{1,2})日?\s+(.+)`, a dated
form with an explicit time; max-year and `is_past_time` checks as in
pattern 11. -/
def pat12 (now : DateTime) (cs : List Char) : Option (Option Schedule) :=
  match take4 cs (fun y rest =>
    match rest with
    | '年' :: r1 =>
      take12 (r1.dropWhile isWsChar) (fun m r2 =>
        match r2 with
        | '月' :: r3 =>
          take12 (r3.dropWhile isWsChar) (fun d r4 =>
            match (match r4 with
                   | '日' :: r5 => capRest1 r5
                   | _ => none) with
            | some tp => some (y, m, d, tp)
            | none =>
              match capRest1 r4 with
              | some tp => some (y, m, d, tp)
              | none => none)
        | _ => none)
    | _ => none) with
  | none => none
  | some (y, m, d, tp) =>
    some (if (y : Int) > now.year + 5 then none
      else match parse_time_with_ampm tp with
        | none => none
        | some (h, mi) =>
          match mkDateTime (y : Int) m d h mi with
          | none => none
          | some t => if t.toMicros < now.toMicros then none else some (mkOnce t))

/-- Pattern 13: `(\d{4})-(\d{1,2})-(\d{1,2})\s+(\d{1,2}):(\d{1,2})` (not
end-anchored); max-year and `is_past_time` checks; the raw hour/minute are
validated only by the `datetime` constructor. -/
def pat13 (now : DateTime) (cs : List Char) : Option (Option Schedule) :=
  match take4 cs (fun y rest =>
    match rest with
    | '-' :: r1 =>
      take12 r1 (fun m r2 =>
        match r2 with
        | '-' :: r3 =>
          take12 r3 (fun d r4 =>
            match r4 with
            | c :: r5 =>
              if isWsChar c then
                take12 (r5.dropWhile isWsChar) (fun hh r6 =>
                  match r6 with
                  | ':' :: r7 => take12 r7 (fun mm _ => some (y, m, d, hh, mm))
                  | _ => none)
              else none
            | [] => none)
        | _ => none)
    | _ => none) with
  | none => none
  | some (y, m, d, hh, mm) =>
    some (if (y : Int) > now.year + 5 then none
      else match mkDateTime (y : Int) m d hh mm with
        | none => none
        | some t => if t.toMicros < now.toMicros then none else some (mkOnce t))

/-- The ordered recognizer chain of `parse_natural_time` on the stripped
character list: the first pattern whose regex matches decides the result. -/
def parseCore (now : DateTime) (cs : List Char) : Option Schedule :=
  (([pat0a now cs, pat0b now cs, pat0c now cs, pat0d now cs,
     pat1 cs, pat2 cs, pat3 now cs, pat4 now cs, pat5 now cs, pat6 now cs,
     pat7 now cs, pat8 cs, pat9 now cs, pat10 now cs, pat11 now cs,
     pat12 now cs, pat13 now cs].findSome? id).getD none)

/-- `time_parser.py parse_natural_time(text)` with the ambient
`get_current_time()` made an explicit `now` parameter (schedule component
only; the description string is not modelled). -/
def parse_natural_time (now : DateTime) (text : String) : Option Schedule :=
  parseCore now (stripChars text.toList)

/-- The reminder fields owned by the persistence collaborator that the
sweep must not change (everything except `next_run_at`, `status` and the
archive stamp). -/
def frameEq (a b : Reminder) : Prop :=
  b.id = a.id ∧ b.user_id = a.user_id ∧ b.text = a.text ∧ b.schedule = a.schedule ∧
    b.created_at = a.created_at

instance : ∀ a b, Decidable (frameEq a b) := fun a b => by
  unfold frameEq; infer_instance

theorem isLeap_iff (y : Int) :
    isLeap y = true ↔ (y % 4 = 0 ∧ (¬ y % 100 = 0 ∨ y % 400 = 0)) := by
  simp [isLeap, Bool.and_eq_true, Bool.or_eq_true]

theorem dfc_feb_mar (y : Int) : dfc y 3 1 = dfc y 2 (daysInMonth y 2) + 1 := by
  have hq : y = 400 * (y / 400) + y % 400 ∧ 0 ≤ y % 400 ∧ y % 400 < 400 := by omega
  have hq' : y - 1 = 400 * ((y - 1) / 400) + (y - 1) % 400 ∧ 0 ≤ (y - 1) % 400 ∧
      (y - 1) % 400 < 400 := by omega
  simp only [dfc, daysInMonth]
  norm_num
  have e1 : y - y / 400 * 400 = y % 400 := by omega
  have e2 : y - 1 - (y - 1) / 400 * 400 = (y - 1) % 400 := by omega
  rw [e1, e2]
  rcases hL : isLeap y with _ | _
  · have hnl : ¬ (isLeap y = true) := by simp [hL]
    have hLa : ¬ (y % 4 = 0 ∧ (¬ y % 100 = 0 ∨ y % 400 = 0)) := by
      rw [← isLeap_iff]; simp [hL]
    norm_num
    revert hLa hq hq'
    generalize y / 400 = q
    generalize (y - 1) / 400 = q'
    generalize y % 400 = k
    generalize (y - 1) % 400 = k'
    intro hLa hq hq'
    omega
  · have hLa := (isLeap_iff y).mp hL
    norm_num
    revert hLa hq hq'
    generalize y / 400 = q
    generalize (y - 1) / 400 = q'
    generalize y % 400 = k
    generalize (y - 1) % 400 = k'
    intro hLa hq hq'
    omega

theorem dfc_next (y : Int) (m d : Nat) (h1 : 1 ≤ m) (h2 : m ≤ 12) (h3 : 1 ≤ d)
    (h4 : d ≤ daysInMonth y m) :
    (if d < daysInMonth y m then dfc y m (d + 1)
     else if m < 12 then dfc y (m + 1) 1 else dfc (y + 1) 1 1) = dfc y m d + 1 := by
  by_cases hm2 : m = 2
  · subst hm2
    by_cases hdlt : d < daysInMonth y 2
    · rw [if_pos hdlt]
      simp only [dfc, daysInMonth] at h4 ⊢
      norm_num at h4 ⊢
      omega
    · rw [if_neg hdlt, if_pos (by norm_num)]
      have hd : d = daysInMonth y 2 := le_antisymm h4 (not_lt.mp hdlt)
      rw [hd]
      exact dfc_feb_mar y
  · interval_cases m <;> simp_all <;>
      (simp only [daysInMonth, dfc] at h4 ⊢; norm_num at h4 ⊢; split <;> omega)

theorem daysInMonth_pos (y : Int) (m : Nat) : 1 ≤ daysInMonth y m := by
  unfold daysInMonth
  split
  · split <;> omega
  · split <;> omega

theorem nextDay_valid (dt : DateTime) (h : dt.Valid) : (nextDay dt).Valid := by
  obtain ⟨h1, h2, h3, h4, h5, h6, h7, h8⟩ := h
  unfold nextDay
  by_cases hd : dt.day < daysInMonth dt.year dt.month
  · rw [if_pos hd]
    refine ⟨h1, h2, ?_, ?_, h5, h6, h7, h8⟩
    · show 1 ≤ dt.day + 1
      omega
    · show dt.day + 1 ≤ daysInMonth dt.year dt.month
      omega
  · rw [if_neg hd]
    by_cases hm : dt.month < 12
    · rw [if_pos hm]
      refine ⟨?_, ?_, le_refl 1, daysInMonth_pos _ _, h5, h6, h7, h8⟩
      · show 1 ≤ dt.month + 1
        omega
      · show dt.month + 1 ≤ 12
        omega
    · rw [if_neg hm]
      refine ⟨le_refl 1, ?_, le_refl 1, daysInMonth_pos _ _, h5, h6, h7, h8⟩
      show (1 : Nat) ≤ 12
      norm_num

theorem nextDay_time (dt : DateTime) :
    (nextDay dt).hour = dt.hour ∧ (nextDay dt).minute = dt.minute ∧
      (nextDay dt).second = dt.second ∧ (nextDay dt).micro = dt.micro := by
  unfold nextDay
  split
  · exact ⟨rfl, rfl, rfl, rfl⟩
  · split
    · exact ⟨rfl, rfl, rfl, rfl⟩
    · exact ⟨rfl, rfl, rfl, rfl⟩

theorem days_nextDay (dt : DateTime) (h : dt.Valid) : (nextDay dt).days = dt.days + 1 := by
  obtain ⟨h1, h2, h3, h4, -⟩ := h
  have key := dfc_next dt.year dt.month dt.day h1 h2 h3 h4
  unfold nextDay
  by_cases hd : dt.day < daysInMonth dt.year dt.month
  · rw [if_pos hd] at key ⊢
    exact key
  · rw [if_neg hd] at key ⊢
    by_cases hm : dt.month < 12
    · rw [if_pos hm] at key ⊢
      exact key
    · rw [if_neg hm] at key ⊢
      exact key

theorem addDaysN_spec (n : Nat) (dt : DateTime) (h : dt.Valid) :
    (addDaysN n dt).Valid ∧ (addDaysN n dt).days = dt.days + n ∧
      (addDaysN n dt).hour = dt.hour ∧ (addDaysN n dt).minute = dt.minute ∧
      (addDaysN n dt).second = dt.second ∧ (addDaysN n dt).micro = dt.micro := by
  induction n generalizing dt with
  | zero => exact ⟨h, by simp [addDaysN], rfl, rfl, rfl, rfl⟩
  | succ n ih =>
    obtain ⟨v, hdd, hh, hm, hs, hmu⟩ := ih (nextDay dt) (nextDay_valid dt h)
    obtain ⟨th, tm, ts, tmu⟩ := nextDay_time dt
    have hstep : addDaysN (n + 1) dt = addDaysN n (nextDay dt) := rfl
    rw [hstep]
    refine ⟨v, ?_, ?_, ?_, ?_, ?_⟩
    · rw [hdd, days_nextDay dt h]
      push_cast
      ring
    · rw [hh, th]
    · rw [hm, tm]
    · rw [hs, ts]
    · rw [hmu, tmu]

theorem todMicros_nonneg (dt : DateTime) : 0 ≤ dt.todMicros := by
  unfold DateTime.todMicros
  exact Int.natCast_nonneg _

theorem todMicros_lt (dt : DateTime) (h : dt.Valid) : dt.todMicros < microsPerDay := by
  obtain ⟨-, -, -, -, h5, h6, h7, h8⟩ := h
  unfold DateTime.todMicros microsPerDay
  have key : (((dt.hour * 60 + dt.minute) * 60 + dt.second) * 1000000 + dt.micro) < 86400000000 := by
    omega
  exact_mod_cast key

theorem weekday_bounds (dt : DateTime) : 0 ≤ dt.weekday ∧ dt.weekday < 7 := by
  unfold DateTime.weekday
  constructor <;> omega

theorem todMicros_eq_of_fields {a b : DateTime} (hh : a.hour = b.hour)
    (hm : a.minute = b.minute) (hs : a.second = b.second) (hmu : a.micro = b.micro) :
    a.todMicros = b.todMicros := by
  unfold DateTime.todMicros
  rw [hh, hm, hs, hmu]

theorem toMicros_addDaysN (n : Nat) (dt : DateTime) (h : dt.Valid) :
    (addDaysN n dt).toMicros = dt.toMicros + n * microsPerDay := by
  obtain ⟨-, hdd, hh, hm, hs, hmu⟩ := addDaysN_spec n dt h
  unfold DateTime.toMicros
  rw [hdd, todMicros_eq_of_fields hh hm hs hmu]
  ring

theorem strptimeHM_lt {s : String} {h mi : Nat} (hp : strptimeHM s = some (h, mi)) :
    h < 24 ∧ mi < 60 := by
  unfold strptimeHM at hp
  split at hp
  · split at hp
    · split at hp
      · split at hp
        · simp only [Option.some.injEq, Prod.mk.injEq] at hp
          omega
        · exact absurd hp (by simp)
      · exact absurd hp (by simp)
    · exact absurd hp (by simp)
  · exact absurd hp (by simp)

theorem processOne_nonpending {notify : Option String → String → Bool} {ct : DateTime}
    {r : Reminder} (hstat : r.status ≠ some "pending") :
    processOne notify ct r = .ok (.keep r, 0) := by
  simp [processOne, hstat]

theorem processOne_stale {notify : Option String → String → Bool} {ct : DateTime}
    {r : Reminder} {t : DateTime} (hstat : r.status = some "pending")
    (hnra : r.next_run_at = some (some t)) (hdue : t.toMicros ≤ ct.toMicros)
    (hstale : 60 * 1000000 < ct.toMicros - t.toMicros) :
    processOne notify ct r = .ok (.done { r with status := some "done" }, 0) := by
  have h2 : ¬ ct.toMicros ≤ 60000000 + t.toMicros := by omega
  simp [processOne, hstat, hnra, hdue, hstale, h2]

theorem processOne_notify_fail {notify : Option String → String → Bool} {ct : DateTime}
    {r : Reminder} {t : DateTime} (hstat : r.status = some "pending")
    (hnra : r.next_run_at = some (some t)) (hdue : t.toMicros ≤ ct.toMicros)
    (hfresh : ct.toMicros - t.toMicros ≤ 60 * 1000000)
    (hfail : notify r.user_id ("🔔 リマインダー\n" ++ r.text.getD "リマインダー") = false) :
    processOne notify ct r = .ok (.keep r, 1) := by
  have h2 : ct.toMicros ≤ 60000000 + t.toMicros := by omega
  simp [processOne, hstat, hnra, hdue, hfail, h2]

theorem processOne_cases (notify : Option String → String → Bool) (ct : DateTime)
    (r : Reminder) :
    processOne notify ct r = .exn ∨
      ∃ out k, processOne notify ct r = .ok (out, k) ∧ k ≤ 1 ∧
        ∀ r', (out = .keep r' ∨ out = .done r') → frameEq r r' := by
  unfold processOne frameEq
  split
  · right
    exact ⟨_, _, rfl, by omega, by
        rintro r' (h | h) <;> (try (injection h with h2; subst h2)) <;> simp_all⟩
  · split
    · right
      exact ⟨_, _, rfl, by omega, by
        rintro r' (h | h) <;> (try (injection h with h2; subst h2)) <;> simp_all⟩
    · right
      exact ⟨_, _, rfl, by omega, by
        rintro r' (h | h) <;> (try (injection h with h2; subst h2)) <;> simp_all⟩
    · split
      · split
        · right
          exact ⟨_, _, rfl, by omega, by
        rintro r' (h | h) <;> (try (injection h with h2; subst h2)) <;> simp_all⟩
        · split
          · split
            · right
              exact ⟨_, _, rfl, by omega, by
        rintro r' (h | h) <;> (try (injection h with h2; subst h2)) <;> simp_all⟩
            · split
              · left; rfl
              · right
                exact ⟨_, _, rfl, by omega, by
        rintro r' (h | h) <;> (try (injection h with h2; subst h2)) <;> simp_all⟩
              · right
                exact ⟨_, _, rfl, by omega, by
        rintro r' (h | h) <;> (try (injection h with h2; subst h2)) <;> simp_all⟩
          · right
            exact ⟨_, _, rfl, by omega, by
        rintro r' (h | h) <;> (try (injection h with h2; subst h2)) <;> simp_all⟩
      · right
        exact ⟨_, _, rfl, by omega, by
        rintro r' (h | h) <;> (try (injection h with h2; subst h2)) <;> simp_all⟩

theorem processOne_calls {notify : Option String → String → Bool} {ct : DateTime}
    {r : Reminder} {out : StepOut} {k : Nat}
    (hp : processOne notify ct r = .ok (out, k)) : k ≤ 1 := by
  rcases processOne_cases notify ct r with h | ⟨out', k', heq, hk, -⟩
  · rw [hp] at h
    exact absurd h (by simp)
  · rw [hp] at heq
    simp only [PyResult.ok.injEq, Prod.mk.injEq] at heq
    omega

theorem processOne_frame {notify : Option String → String → Bool} {ct : DateTime}
    {r : Reminder} {out : StepOut} {k : Nat}
    (hp : processOne notify ct r = .ok (out, k)) :
    ∀ r', (out = .keep r' ∨ out = .done r') → frameEq r r' := by
  rcases processOne_cases notify ct r with h | ⟨out', k', heq, -, hf⟩
  · rw [hp] at h
    exact absurd h (by simp)
  · rw [hp] at heq
    simp only [PyResult.ok.injEq, Prod.mk.injEq] at heq
    rw [heq.1.symm] at hf
    exact hf

theorem process_cons_keep {notify : Option String → String → Bool} {ct : DateTime}
    {r r' : Reminder} {rs : List Reminder} {k : Nat}
    {upd comp : List Reminder} {n : Nat}
    (h1 : processOne notify ct r = .ok (.keep r', k))
    (h2 : process_due_reminders notify ct rs = .ok (upd, comp, n)) :
    process_due_reminders notify ct (r :: rs) = .ok (r' :: upd, comp, k + n) := by
  unfold process_due_reminders
  rw [h1, h2]

theorem process_cons_done {notify : Option String → String → Bool} {ct : DateTime}
    {r r' : Reminder} {rs : List Reminder} {k : Nat}
    {upd comp : List Reminder} {n : Nat}
    (h1 : processOne notify ct r = .ok (.done r', k))
    (h2 : process_due_reminders notify ct rs = .ok (upd, comp, n)) :
    process_due_reminders notify ct (r :: rs) = .ok (upd, r' :: comp, k + n) := by
  unfold process_due_reminders
  rw [h1, h2]

theorem process_cons_inv {notify : Option String → String → Bool} {ct : DateTime}
    {r : Reminder} {rs : List Reminder} {upd comp : List Reminder} {n : Nat}
    (h : process_due_reminders notify ct (r :: rs) = .ok (upd, comp, n)) :
    ∃ out k upd' comp' n', processOne notify ct r = .ok (out, k) ∧
      process_due_reminders notify ct rs = .ok (upd', comp', n') ∧ n = k + n' ∧
      ((∃ r', out = .keep r' ∧ upd = r' :: upd' ∧ comp = comp') ∨
       (∃ r', out = .done r' ∧ upd = upd' ∧ comp = r' :: comp')) := by
  unfold process_due_reminders at h
  cases hp : processOne notify ct r with
  | exn => rw [hp] at h; exact absurd h (by simp)
  | ok outk =>
    obtain ⟨out, k⟩ := outk
    rw [hp] at h
    cases hq : process_due_reminders notify ct rs with
    | exn => rw [hq] at h; exact absurd h (by simp)
    | ok res =>
      obtain ⟨upd', comp', n'⟩ := res
      rw [hq] at h
      cases out with
      | keep r' =>
        simp only [PyResult.ok.injEq, Prod.mk.injEq] at h
        exact ⟨.keep r', k, upd', comp', n', rfl, rfl, h.2.2.symm,
          Or.inl ⟨r', rfl, h.1.symm, h.2.1.symm⟩⟩
      | done r' =>
        simp only [PyResult.ok.injEq, Prod.mk.injEq] at h
        exact ⟨.done r', k, upd', comp', n', rfl, rfl, h.2.2.symm,
          Or.inr ⟨r', rfl, h.1.symm, h.2.1.symm⟩⟩

theorem process_mem_keep {notify : Option String → String → Bool} {ct : DateTime}
    {rs upd comp : List Reminder} {n : Nat} {r x : Reminder} {k : Nat}
    (hok : process_due_reminders notify ct rs = .ok (upd, comp, n))
    (hr : r ∈ rs) (hp : processOne notify ct r = .ok (.keep x, k)) : x ∈ upd := by
  induction rs generalizing upd comp n with
  | nil => cases hr
  | cons a rest ih =>
    obtain ⟨out, k', upd', comp', n', hp', hq, -, hcase⟩ := process_cons_inv hok
    rcases List.mem_cons.mp hr with rfl | hmem
    · rw [hp] at hp'
      rcases hcase with ⟨r', ho, hu, -⟩ | ⟨r', ho, -, -⟩
      · injection hp' with h1
        injection h1 with h2 h3
        rw [← h2] at ho
        injection ho with h4
        rw [hu, ← h4]
        exact List.mem_cons_self _ _
      · rw [ho] at hp'
        simp at hp'
    · rcases hcase with ⟨r', -, hu, -⟩ | ⟨r', -, hu, -⟩
      · rw [hu]
        exact List.mem_cons_of_mem _ (ih hq hmem)
      · rw [hu]
        exact ih hq hmem

theorem process_mem_done {notify : Option String → String → Bool} {ct : DateTime}
    {rs upd comp : List Reminder} {n : Nat} {r x : Reminder} {k : Nat}
    (hok : process_due_reminders notify ct rs = .ok (upd, comp, n))
    (hr : r ∈ rs) (hp : processOne notify ct r = .ok (.done x, k)) : x ∈ comp := by
  induction rs generalizing upd comp n with
  | nil => cases hr
  | cons a rest ih =>
    obtain ⟨out, k', upd', comp', n', hp', hq, -, hcase⟩ := process_cons_inv hok
    rcases List.mem_cons.mp hr with rfl | hmem
    · rw [hp] at hp'
      rcases hcase with ⟨r', ho, -, -⟩ | ⟨r', ho, -, hc⟩
      · rw [ho] at hp'
        simp at hp'
      · rw [ho] at hp'
        simp only [PyResult.ok.injEq, Prod.mk.injEq, StepOut.done.injEq] at hp'
        rw [hc, hp'.1]
        exact List.mem_cons_self _ _
    · rcases hcase with ⟨r', -, -, hc⟩ | ⟨r', -, -, hc⟩
      · rw [hc]
        exact ih hq hmem
      · rw [hc]
        exact List.mem_cons_of_mem _ (ih hq hmem)

/-- C1: the spec says that advancing `Monthly{day = 31, time = 10:00}` from a
previous run instant of 2025-01-31 10:00 skips February entirely — never
clamping the day — and returns 2025-03-31 10:00. The code instead raises an
uncaught `ValueError` (modelled `.exn`): the month-advancing
`current_run.replace(month=current_run.month + 1)` re-validates the old day
31 against February and raises before the month-skipping logic is reached. -/
theorem c1_monthly_day31_advance_raises :
    calculate_next_run_at ⟨some "monthly", none, some 31, some "10:00", none⟩
        ⟨2025, 1, 31, 10, 0, 0, 0⟩ = PyResult.exn ∧
      calculate_next_run_at ⟨some "monthly", none, some 31, some "10:00", none⟩
        ⟨2025, 1, 31, 10, 0, 0, 0⟩ ≠ PyResult.ok (some ⟨2025, 3, 31, 10, 0, 0, 0⟩) := by
  decide

/-- C2: the spec says no single reminder's error halts processing of the
others in the same sweep. The loop body has no per-reminder exception
handler, so the `ValueError` raised while advancing a due day-31 monthly
reminder (30 s overdue, notify succeeding) aborts the whole sweep: with a
second due reminder behind it, `process_due_reminders` yields `.exn` — the
second reminder is never processed and no updated or archived state is
produced — while the same second reminder alone is processed fine. -/
theorem c2_reminder_error_aborts_whole_sweep :
    process_due_reminders (fun _ _ => true) ⟨2025, 1, 31, 10, 0, 30, 0⟩
        [⟨"r1", some "u1", some "m1", ⟨some "monthly", none, some 31, some "10:00", none⟩,
            some (some ⟨2025, 1, 31, 10, 0, 0, 0⟩), "2025-01-01T09:00", some "pending", none⟩,
          ⟨"r2", some "u2", some "m2", ⟨some "once", none, none, none,
              some ⟨2025, 1, 31, 10, 0, 0, 0⟩⟩,
            some (some ⟨2025, 1, 31, 10, 0, 0, 0⟩), "2025-01-01T09:00", some "pending", none⟩] =
      PyResult.exn ∧
    process_due_reminders (fun _ _ => true) ⟨2025, 1, 31, 10, 0, 30, 0⟩
        [⟨"r2", some "u2", some "m2", ⟨some "once", none, none, none,
            some ⟨2025, 1, 31, 10, 0, 0, 0⟩⟩,
          some (some ⟨2025, 1, 31, 10, 0, 0, 0⟩), "2025-01-01T09:00", some "pending", none⟩] =
      PyResult.ok ([], [⟨"r2", some "u2", some "m2", ⟨some "once", none, none, none,
            some ⟨2025, 1, 31, 10, 0, 0, 0⟩⟩,
          some (some ⟨2025, 1, 31, 10, 0, 0, 0⟩), "2025-01-01T09:00", some "done", none⟩], 1) := by
  decide

/-- C8: for every schedule of kind "once", `calculate_initial_run_at`
returns the embedded `run_at` verbatim, for every reference instant. -/
theorem c8_once_initial_run_at_identity (now : DateTime) (s : Schedule)
    (h : s.stype = some "once") : calculate_initial_run_at now s = .ok s.run_at := by
  unfold calculate_initial_run_at
  rw [h]
  rfl

/-- C8 witness: "2025年5月3日 14:00" parses to a Once schedule, and feeding
that schedule to `calculate_initial_run_at` returns the identical instant. -/
theorem c8_once_initial_run_at_identity_witness :
    parse_natural_time ⟨2025, 1, 1, 10, 0, 0, 0⟩ "2025年5月3日 14:00" =
        some ⟨some "once", none, none, none, some ⟨2025, 5, 3, 14, 0, 0, 0⟩⟩ ∧
      calculate_initial_run_at ⟨2025, 1, 1, 10, 0, 0, 0⟩
          ⟨some "once", none, none, none, some ⟨2025, 5, 3, 14, 0, 0, 0⟩⟩ =
        .ok (some ⟨2025, 5, 3, 14, 0, 0, 0⟩) :=
  ⟨by decide, c8_once_initial_run_at_identity ⟨2025, 1, 1, 10, 0, 0, 0⟩
    ⟨some "once", none, none, none, some ⟨2025, 5, 3, 14, 0, 0, 0⟩⟩ rfl⟩

theorem frameEq_stamp {r c : Reminder} (at_time : DateTime) (h : frameEq r c) :
    frameEq r { c with archived_at := some at_time } := h

/-- C5: a pending reminder whose parseable `next_run_at` is due with
staleness strictly over the 60-second grace period is retired by a
completing sweep — status set to "done", placed in the completed list, and
stamped into the archive — and its processing makes zero notify calls.
More generally every reminder's processing makes at most one notify call,
and every stale due one exactly zero. -/
theorem c5_stale_retired_no_notify (notify : Option String → String → Bool)
    (ct at_time : DateTime) (rs upd comp archive : List Reminder) (n : Nat)
    (hok : process_due_reminders notify ct rs = .ok (upd, comp, n))
    (r : Reminder) (t : DateTime) (hr : r ∈ rs) (hstat : r.status = some "pending")
    (hnra : r.next_run_at = some (some t)) (hdue : t.toMicros ≤ ct.toMicros)
    (hstale : 60 * 1000000 < ct.toMicros - t.toMicros) :
    ({ r with status := some "done" } ∈ comp) ∧
      processOne notify ct r = .ok (.done { r with status := some "done" }, 0) ∧
      ({ r with status := some "done", archived_at := some at_time } ∈
        append_to_archive at_time archive comp) ∧
      (∀ r' out k, processOne notify ct r' = .ok (out, k) → k ≤ 1) ∧
      (∀ r' (t' : DateTime) out k, r'.status = some "pending" →
        r'.next_run_at = some (some t') → t'.toMicros ≤ ct.toMicros →
        60 * 1000000 < ct.toMicros - t'.toMicros →
        processOne notify ct r' = .ok (out, k) → k = 0) := by
  have hp := @processOne_stale notify ct r t hstat hnra hdue hstale
  have hmem := process_mem_done hok hr hp
  refine ⟨hmem, hp, ?_, ?_, ?_⟩
  · unfold append_to_archive
    refine List.mem_append_right _ ?_
    exact List.mem_map_of_mem (fun c => { c with archived_at := some at_time }) hmem
  · intro r' out k hpk
    exact processOne_calls hpk
  · intro r' t' out k hstat' hnra' hdue' hstale' hpk
    rw [@processOne_stale notify ct r' t' hstat' hnra' hdue' hstale'] at hpk
    injection hpk with h1
    injection h1 with h2 h3
    exact h3.symm

/-- C5 witness: a sweep at 2025-01-01 12:00 over one pending reminder due at
11:58 (120 s stale) retires it to the completed list and archive with zero
notify calls. -/
theorem c5_stale_retired_no_notify_witness :
    (⟨"s1", some "u1", some "m1", ⟨some "once", none, none, none,
        some ⟨2025, 1, 1, 11, 58, 0, 0⟩⟩,
      some (some ⟨2025, 1, 1, 11, 58, 0, 0⟩), "2024-12-31T09:00", some "done", none⟩ : Reminder) ∈
      [(⟨"s1", some "u1", some "m1", ⟨some "once", none, none, none,
          some ⟨2025, 1, 1, 11, 58, 0, 0⟩⟩,
        some (some ⟨2025, 1, 1, 11, 58, 0, 0⟩), "2024-12-31T09:00", some "done", none⟩ : Reminder)] ∧
    processOne (fun _ _ => true) ⟨2025, 1, 1, 12, 0, 0, 0⟩
        ⟨"s1", some "u1", some "m1", ⟨some "once", none, none, none,
            some ⟨2025, 1, 1, 11, 58, 0, 0⟩⟩,
          some (some ⟨2025, 1, 1, 11, 58, 0, 0⟩), "2024-12-31T09:00", some "pending", none⟩ =
      .ok (.done ⟨"s1", some "u1", some "m1", ⟨some "once", none, none, none,
            some ⟨2025, 1, 1, 11, 58, 0, 0⟩⟩,
          some (some ⟨2025, 1, 1, 11, 58, 0, 0⟩), "2024-12-31T09:00", some "done", none⟩, 0) := by
  have h := c5_stale_retired_no_notify (fun _ _ => true) ⟨2025, 1, 1, 12, 0, 0, 0⟩
    ⟨2025, 1, 1, 12, 5, 0, 0⟩ [⟨"s1", some "u1", some "m1", ⟨some "once", none, none, none,
        some ⟨2025, 1, 1, 11, 58, 0, 0⟩⟩,
      some (some ⟨2025, 1, 1, 11, 58, 0, 0⟩), "2024-12-31T09:00", some "pending", none⟩]
    [] [⟨"s1", some "u1", some "m1", ⟨some "once", none, none, none,
        some ⟨2025, 1, 1, 11, 58, 0, 0⟩⟩,
      some (some ⟨2025, 1, 1, 11, 58, 0, 0⟩), "2024-12-31T09:00", some "done", none⟩] [] 0
    (by decide)
    ⟨"s1", some "u1", some "m1", ⟨some "once", none, none, none,
        some ⟨2025, 1, 1, 11, 58, 0, 0⟩⟩,
      some (some ⟨2025, 1, 1, 11, 58, 0, 0⟩), "2024-12-31T09:00", some "pending", none⟩
    ⟨2025, 1, 1, 11, 58, 0, 0⟩ (by decide) rfl rfl (by decide) (by decide)
  exact ⟨h.1, h.2.1⟩

/-- C6: a pending reminder due within the 60-second grace period whose
notify call fails is kept by a completing sweep in the updated list as the
very same record — identical in every field — so it is retried on the next
cycle. -/
theorem c6_notify_failure_unchanged (notify : Option String → String → Bool)
    (ct : DateTime) (rs upd comp : List Reminder) (n : Nat)
    (hok : process_due_reminders notify ct rs = .ok (upd, comp, n))
    (r : Reminder) (t : DateTime) (hr : r ∈ rs) (hstat : r.status = some "pending")
    (hnra : r.next_run_at = some (some t)) (hdue : t.toMicros ≤ ct.toMicros)
    (hfresh : ct.toMicros - t.toMicros ≤ 60 * 1000000)
    (hfail : notify r.user_id ("🔔 リマインダー\n" ++ r.text.getD "リマインダー") = false) :
    r ∈ upd ∧ processOne notify ct r = .ok (.keep r, 1) := by
  have hp := @processOne_notify_fail notify ct r t hstat hnra hdue hfresh hfail
  exact ⟨process_mem_keep hok hr hp, hp⟩

/-- C6 witness: a sweep at 2025-01-01 12:00 over one pending reminder due at
11:59:30 (30 s overdue, inside the grace period) with a failing notifier
returns the identical reminder in the updated list. -/
theorem c6_notify_failure_unchanged_witness :
    (⟨"f1", some "u1", some "m1", ⟨some "once", none, none, none,
        some ⟨2025, 1, 1, 11, 59, 30, 0⟩⟩,
      some (some ⟨2025, 1, 1, 11, 59, 30, 0⟩), "2024-12-31T09:00", some "pending", none⟩ : Reminder) ∈
      [(⟨"f1", some "u1", some "m1", ⟨some "once", none, none, none,
          some ⟨2025, 1, 1, 11, 59, 30, 0⟩⟩,
        some (some ⟨2025, 1, 1, 11, 59, 30, 0⟩), "2024-12-31T09:00", some "pending", none⟩ : Reminder)] ∧
    processOne (fun _ _ => false) ⟨2025, 1, 1, 12, 0, 0, 0⟩
        ⟨"f1", some "u1", some "m1", ⟨some "once", none, none, none,
            some ⟨2025, 1, 1, 11, 59, 30, 0⟩⟩,
          some (some ⟨2025, 1, 1, 11, 59, 30, 0⟩), "2024-12-31T09:00", some "pending", none⟩ =
      .ok (.keep ⟨"f1", some "u1", some "m1", ⟨some "once", none, none, none,
            some ⟨2025, 1, 1, 11, 59, 30, 0⟩⟩,
          some (some ⟨2025, 1, 1, 11, 59, 30, 0⟩), "2024-12-31T09:00", some "pending", none⟩, 1) := by
  have h := c6_notify_failure_unchanged (fun _ _ => false) ⟨2025, 1, 1, 12, 0, 0, 0⟩
    [⟨"f1", some "u1", some "m1", ⟨some "once", none, none, none,
        some ⟨2025, 1, 1, 11, 59, 30, 0⟩⟩,
      some (some ⟨2025, 1, 1, 11, 59, 30, 0⟩), "2024-12-31T09:00", some "pending", none⟩]
    [⟨"f1", some "u1", some "m1", ⟨some "once", none, none, none,
        some ⟨2025, 1, 1, 11, 59, 30, 0⟩⟩,
      some (some ⟨2025, 1, 1, 11, 59, 30, 0⟩), "2024-12-31T09:00", some "pending", none⟩] [] 1
    (by decide)
    ⟨"f1", some "u1", some "m1", ⟨some "once", none, none, none,
        some ⟨2025, 1, 1, 11, 59, 30, 0⟩⟩,
      some (some ⟨2025, 1, 1, 11, 59, 30, 0⟩), "2024-12-31T09:00", some "pending", none⟩
    ⟨2025, 1, 1, 11, 59, 30, 0⟩ (by decide) rfl rfl (by decide) (by decide) rfl
  exact ⟨h.1, h.2⟩

/-- C9: every reminder a completing sweep returns — whether kept in the
updated list, placed in the completed list, or stamped into the archive —
preserves id, owner id, message text, schedule and created_at from some
input reminder of the same sweep (the sweep writes only `next_run_at`,
`status` and the archive stamp). -/
theorem c9_sweep_preserves_frame (notify : Option String → String → Bool)
    (ct at_time : DateTime) (rs upd comp archive : List Reminder) (n : Nat)
    (hok : process_due_reminders notify ct rs = .ok (upd, comp, n)) :
    (∀ r' ∈ upd, ∃ r ∈ rs, frameEq r r') ∧
      (∀ c ∈ comp, ∃ r ∈ rs, frameEq r c) ∧
      (∀ c ∈ append_to_archive at_time archive comp,
        c ∈ archive ∨ ∃ r ∈ rs, frameEq r c) := by
  have main : (∀ r' ∈ upd, ∃ r ∈ rs, frameEq r r') ∧ (∀ c ∈ comp, ∃ r ∈ rs, frameEq r c) := by
    induction rs generalizing upd comp n with
    | nil =>
      simp only [process_due_reminders, PyResult.ok.injEq, Prod.mk.injEq] at hok
      obtain ⟨rfl, rfl, -⟩ := hok
      exact ⟨fun r' h => absurd h (by simp), fun c h => absurd h (by simp)⟩
    | cons a rest ih =>
      obtain ⟨out, k, upd', comp', n', hp, hq, -, hcase⟩ := process_cons_inv hok
      obtain ⟨ihu, ihc⟩ := ih _ _ _ hq
      have hframe := processOne_frame hp
      rcases hcase with ⟨r', ho, hu, hc⟩ | ⟨r', ho, hu, hc⟩
      · subst hu hc
        refine ⟨?_, ?_⟩
        · intro x hx
          rcases List.mem_cons.mp hx with rfl | hx
          · exact ⟨a, List.mem_cons_self _ _, hframe x (Or.inl ho)⟩
          · obtain ⟨r, hrm, hfr⟩ := ihu x hx
            exact ⟨r, List.mem_cons_of_mem _ hrm, hfr⟩
        · intro c hcm
          obtain ⟨r, hrm, hfr⟩ := ihc c hcm
          exact ⟨r, List.mem_cons_of_mem _ hrm, hfr⟩
      · subst hu hc
        refine ⟨?_, ?_⟩
        · intro x hx
          obtain ⟨r, hrm, hfr⟩ := ihu x hx
          exact ⟨r, List.mem_cons_of_mem _ hrm, hfr⟩
        · intro c hcm
          rcases List.mem_cons.mp hcm with rfl | hcm
          · exact ⟨a, List.mem_cons_self _ _, hframe c (Or.inr ho)⟩
          · obtain ⟨r, hrm, hfr⟩ := ihc c hcm
            exact ⟨r, List.mem_cons_of_mem _ hrm, hfr⟩
  refine ⟨main.1, main.2, ?_⟩
  intro c hcm
  unfold append_to_archive at hcm
  rcases List.mem_append.mp hcm with hca | hcs
  · exact Or.inl hca
  · obtain ⟨c0, hc0m, rfl⟩ := List.mem_map.mp hcs
    obtain ⟨r, hrm, hfr⟩ := main.2 c0 hc0m
    exact Or.inr ⟨r, hrm, frameEq_stamp at_time hfr⟩

/-- C9 witness: in a concrete one-reminder sweep whose notify succeeds, the
retired output and its stamped archive entry both preserve the frame fields
of the input reminder. -/
theorem c9_sweep_preserves_frame_witness :
    frameEq
      ⟨"o1", some "u1", some "m1", ⟨some "once", none, none, none,
          some ⟨2025, 1, 1, 11, 59, 30, 0⟩⟩,
        some (some ⟨2025, 1, 1, 11, 59, 30, 0⟩), "2024-12-31T09:00", some "pending", none⟩
      ⟨"o1", some "u1", some "m1", ⟨some "once", none, none, none,
          some ⟨2025, 1, 1, 11, 59, 30, 0⟩⟩,
        some (some ⟨2025, 1, 1, 11, 59, 30, 0⟩), "2024-12-31T09:00", some "done", none⟩ ∧
    frameEq
      ⟨"o1", some "u1", some "m1", ⟨some "once", none, none, none,
          some ⟨2025, 1, 1, 11, 59, 30, 0⟩⟩,
        some (some ⟨2025, 1, 1, 11, 59, 30, 0⟩), "2024-12-31T09:00", some "pending", none⟩
      ⟨"o1", some "u1", some "m1", ⟨some "once", none, none, none,
          some ⟨2025, 1, 1, 11, 59, 30, 0⟩⟩,
        some (some ⟨2025, 1, 1, 11, 59, 30, 0⟩), "2024-12-31T09:00", some "done",
        some ⟨2025, 1, 1, 12, 5, 0, 0⟩⟩ := by
  have h := c9_sweep_preserves_frame (fun _ _ => true) ⟨2025, 1, 1, 12, 0, 0, 0⟩
    ⟨2025, 1, 1, 12, 5, 0, 0⟩
    [⟨"o1", some "u1", some "m1", ⟨some "once", none, none, none,
        some ⟨2025, 1, 1, 11, 59, 30, 0⟩⟩,
      some (some ⟨2025, 1, 1, 11, 59, 30, 0⟩), "2024-12-31T09:00", some "pending", none⟩]
    []
    [⟨"o1", some "u1", some "m1", ⟨some "once", none, none, none,
        some ⟨2025, 1, 1, 11, 59, 30, 0⟩⟩,
      some (some ⟨2025, 1, 1, 11, 59, 30, 0⟩), "2024-12-31T09:00", some "done", none⟩]
    [] 1 (by decide)
  constructor
  · obtain ⟨r, hm, hf⟩ := h.2.1
      ⟨"o1", some "u1", some "m1", ⟨some "once", none, none, none,
          some ⟨2025, 1, 1, 11, 59, 30, 0⟩⟩,
        some (some ⟨2025, 1, 1, 11, 59, 30, 0⟩), "2024-12-31T09:00", some "done", none⟩
      (by decide)
    rw [List.mem_singleton.mp hm] at hf
    exact hf
  · obtain ⟨r, hm, hf⟩ := (h.2.2
      ⟨"o1", some "u1", some "m1", ⟨some "once", none, none, none,
          some ⟨2025, 1, 1, 11, 59, 30, 0⟩⟩,
        some (some ⟨2025, 1, 1, 11, 59, 30, 0⟩), "2024-12-31T09:00", some "done",
        some ⟨2025, 1, 1, 12, 5, 0, 0⟩⟩
      (by decide)).resolve_left (by simp)
    rw [List.mem_singleton.mp hm] at hf
    exact hf

/-- C10: a reminder whose status is not "pending" passes through a
completing sweep into the updated list unchanged — the non-pending inputs
form a sublist of the updated output in order — its processing makes zero
notify calls, and every entry of the completed (archived) list originates
from a pending input. -/
theorem c10_nonpending_pass_through (notify : Option String → String → Bool)
    (ct : DateTime) (rs upd comp : List Reminder) (n : Nat)
    (hok : process_due_reminders notify ct rs = .ok (upd, comp, n)) :
    ((rs.filter (fun r => r.status != some "pending")).Sublist upd) ∧
      (∀ r ∈ rs, r.status ≠ some "pending" → processOne notify ct r = .ok (.keep r, 0)) ∧
      (∀ c ∈ comp, ∃ r ∈ rs, r.status = some "pending" ∧
        ∃ k, processOne notify ct r = .ok (.done c, k)) := by
  induction rs generalizing upd comp n with
  | nil =>
    simp only [process_due_reminders, PyResult.ok.injEq, Prod.mk.injEq] at hok
    obtain ⟨rfl, rfl, -⟩ := hok
    exact ⟨by simp, fun r h => absurd h (by simp), fun c h => absurd h (by simp)⟩
  | cons a rest ih =>
    obtain ⟨out, k, upd', comp', n', hp, hq, -, hcase⟩ := process_cons_inv hok
    obtain ⟨ihs, iha, ihc⟩ := ih _ _ _ hq
    by_cases hpend : a.status = some "pending"
    · have hfil : (a :: rest).filter (fun r => r.status != some "pending") =
          rest.filter (fun r => r.status != some "pending") := by
        simp [List.filter_cons, hpend]
      rcases hcase with ⟨r', ho, hu, hc⟩ | ⟨r', ho, hu, hc⟩
      · subst hu hc
        refine ⟨hfil ▸ ihs.cons r', ?_, ?_⟩
        · intro r hrm hnp
          rcases List.mem_cons.mp hrm with rfl | hrm
          · exact absurd hpend hnp
          · exact iha r hrm hnp
        · intro c hcm
          obtain ⟨r, hrm, hrp, hk⟩ := ihc c hcm
          exact ⟨r, List.mem_cons_of_mem _ hrm, hrp, hk⟩
      · subst hu hc
        refine ⟨hfil ▸ ihs, ?_, ?_⟩
        · intro r hrm hnp
          rcases List.mem_cons.mp hrm with rfl | hrm
          · exact absurd hpend hnp
          · exact iha r hrm hnp
        · intro c hcm
          rcases List.mem_cons.mp hcm with rfl | hcm
          · refine ⟨a, List.mem_cons_self _ _, hpend, k, ?_⟩
            rw [ho] at hp
            exact hp
          · obtain ⟨r, hrm, hrp, hk⟩ := ihc c hcm
            exact ⟨r, List.mem_cons_of_mem _ hrm, hrp, hk⟩
    · have hstep := @processOne_nonpending notify ct a hpend
      rw [hstep] at hp
      injection hp with h1
      injection h1 with h2 h3
      have hout : out = .keep a := h2.symm
      rcases hcase with ⟨r', ho, hu, hc⟩ | ⟨r', ho, hu, hc⟩
      · rw [hout] at ho
        injection ho with h4
        subst hu hc
        have hfil : (a :: rest).filter (fun r => r.status != some "pending") =
            a :: rest.filter (fun r => r.status != some "pending") := by
          simp [List.filter_cons, hpend]
        refine ⟨?_, ?_, ?_⟩
        · rw [hfil, ← h4]
          exact ihs.cons₂ a
        · intro r hrm hnp
          rcases List.mem_cons.mp hrm with rfl | hrm
          · exact processOne_nonpending hnp
          · exact iha r hrm hnp
        · intro c hcm
          obtain ⟨r, hrm, hrp, hk⟩ := ihc c hcm
          exact ⟨r, List.mem_cons_of_mem _ hrm, hrp, hk⟩
      · rw [hout] at ho
        exact absurd ho (by simp)

/-- C10 witness: a sweep over one done-status reminder with a long-past due
time returns it unchanged in the updated list with zero notify calls. -/
theorem c10_nonpending_pass_through_witness :
    (([(⟨"d1", some "u1", some "m1", ⟨some "once", none, none, none,
          some ⟨2020, 1, 1, 9, 0, 0, 0⟩⟩,
        some (some ⟨2020, 1, 1, 9, 0, 0, 0⟩), "2019-12-31T09:00", some "done", none⟩ : Reminder)].filter
        (fun r => r.status != some "pending")).Sublist
      [(⟨"d1", some "u1", some "m1", ⟨some "once", none, none, none,
          some ⟨2020, 1, 1, 9, 0, 0, 0⟩⟩,
        some (some ⟨2020, 1, 1, 9, 0, 0, 0⟩), "2019-12-31T09:00", some "done", none⟩ : Reminder)]) := by
  have h := c10_nonpending_pass_through (fun _ _ => true) ⟨2025, 1, 1, 12, 0, 0, 0⟩
    [⟨"d1", some "u1", some "m1", ⟨some "once", none, none, none,
        some ⟨2020, 1, 1, 9, 0, 0, 0⟩⟩,
      some (some ⟨2020, 1, 1, 9, 0, 0, 0⟩), "2019-12-31T09:00", some "done", none⟩]
    [⟨"d1", some "u1", some "m1", ⟨some "once", none, none, none,
        some ⟨2020, 1, 1, 9, 0, 0, 0⟩⟩,
      some (some ⟨2020, 1, 1, 9, 0, 0, 0⟩), "2019-12-31T09:00", some "done", none⟩] [] 0
    (by decide)
  exact h.1

/-- C7: for every weekly schedule with an in-range weekday and a well-formed
HH:MM time string, and every valid reference instant, the weekly branch of
`calculate_initial_run_at` returns a valid instant strictly after `now`
whose weekday and time of day match the schedule; it is the smallest such
instant; and when `now` lies exactly on the scheduled weekday at
HH:MM:00.000000 the result is exactly seven days later. -/
theorem c7_weekly_initial_minimal (now : DateTime) (hv : now.Valid)
    (s : Schedule) (W : Int) (ts : String) (H M : Nat)
    (hst : s.stype = some "weekly") (hw : s.weekday = some W)
    (hW0 : 0 ≤ W) (hW6 : W < 7) (hts : s.time = some ts)
    (hhm : strptimeHM ts = some (H, M)) :
    ∃ res : DateTime, calculate_initial_run_at now s = .ok (some res) ∧
      res.Valid ∧ now.toMicros < res.toMicros ∧
      res.weekday = W ∧ res.hour = H ∧ res.minute = M ∧ res.second = 0 ∧ res.micro = 0 ∧
      (∀ t : DateTime, t.Valid → t.weekday = W → t.hour = H → t.minute = M →
        t.second = 0 → t.micro = 0 → now.toMicros < t.toMicros →
        res.toMicros ≤ t.toMicros) ∧
      (now.weekday = W → now.hour = H → now.minute = M → now.second = 0 → now.micro = 0 →
        res.toMicros = now.toMicros + 7 * microsPerDay) := by
  obtain ⟨hH, hM⟩ := strptimeHM_lt hhm
  obtain ⟨hnw0, hnw7⟩ := weekday_bounds now
  obtain ⟨e, he⟩ : ∃ e : Int, e =
      (if W - now.weekday < 0 then W - now.weekday + 7
       else if W - now.weekday = 0 then
         (if (((H * 60 + M) * 60 * 1000000 : Nat) : Int) ≤ now.todMicros then 7 else 0)
       else W - now.weekday) := ⟨_, rfl⟩
  obtain ⟨res, hres⟩ : ∃ res : DateTime, res =
      { addDaysI e now with hour := H, minute := M, second := 0, micro := 0 } := ⟨_, rfl⟩
  have hecases :
      (W - now.weekday < 0 ∧ e = W - now.weekday + 7) ∨
      (W - now.weekday = 0 ∧ (((H * 60 + M) * 60 * 1000000 : Nat) : Int) ≤ now.todMicros ∧
        e = 7) ∨
      (W - now.weekday = 0 ∧ now.todMicros < (((H * 60 + M) * 60 * 1000000 : Nat) : Int) ∧
        e = 0) ∨
      (0 < W - now.weekday ∧ e = W - now.weekday) := by
    rw [he]
    split_ifs with h1 h2 h3 <;> omega
  have hcal : calculate_initial_run_at now s = .ok (some res) := by
    rw [hres, he]
    simp only [calculate_initial_run_at, hst, hw, hts, hhm]
  have he0 : 0 ≤ e := by omega
  have hadd : addDaysI e now = addDaysN e.toNat now := by
    unfold addDaysI
    rw [if_pos he0]
  obtain ⟨hval, hdays, hbh, hbm, hbs, hbmu⟩ := addDaysN_spec e.toNat now hv
  have hresdays : res.days = now.days + e := by
    have hb : res.days = (addDaysN e.toNat now).days := by
      rw [hres, hadd]
      rfl
    rw [hb, hdays, Int.toNat_of_nonneg he0]
  have hresv : res.Valid := by
    obtain ⟨a1, a2, a3, a4, -, -, -, -⟩ := hval
    rw [hres, hadd]
    exact ⟨a1, a2, a3, a4, hH, hM, by show (0 : Nat) < 60; omega,
      by show (0 : Nat) < 1000000; omega⟩
  have hrestod : res.todMicros = (((H * 60 + M) * 60 * 1000000 : Nat) : Int) := by
    rw [hres]
    show ((((H * 60 + M) * 60 + 0) * 1000000 + 0 : Nat) : Int) = _
    push_cast
    ring
  have hresmic : res.toMicros = (now.days + e) * microsPerDay +
      (((H * 60 + M) * 60 * 1000000 : Nat) : Int) := by
    show res.days * microsPerDay + res.todMicros = _
    rw [hresdays, hrestod]
  have hnowmic : now.toMicros = now.days * microsPerDay + now.todMicros := rfl
  have htodn0 : 0 ≤ now.todMicros := todMicros_nonneg now
  have htodnlt : now.todMicros < microsPerDay := todMicros_lt now hv
  have htarget0 : (0 : Int) ≤ (((H * 60 + M) * 60 * 1000000 : Nat) : Int) :=
    Int.natCast_nonneg _
  have htargetlt : (((H * 60 + M) * 60 * 1000000 : Nat) : Int) < microsPerDay := by
    unfold microsPerDay
    have key : (H * 60 + M) * 60 * 1000000 < 86400000000 := by omega
    exact_mod_cast key
  have hnwdef : now.weekday = (now.days + 3) % 7 := rfl
  have hmpd : microsPerDay = 86400000000 := rfl
  rw [hmpd] at hresmic hnowmic htodnlt htargetlt
  have hreswd : res.weekday = W := by
    show (res.days + 3) % 7 = W
    rw [hresdays]
    omega
  refine ⟨res, hcal, hresv, ?_, hreswd, by rw [hres], by rw [hres], by rw [hres], by rw [hres],
    ?_, ?_⟩
  · rw [hresmic, hnowmic]
    omega
  · intro t ht hwd hth htm hts2 htmu hlt
    have httod : t.todMicros = (((H * 60 + M) * 60 * 1000000 : Nat) : Int) := by
      unfold DateTime.todMicros
      rw [hth, htm, hts2, htmu]
      push_cast
      ring
    have htmic : t.toMicros = t.days * 86400000000 +
        (((H * 60 + M) * 60 * 1000000 : Nat) : Int) := by
      show t.days * microsPerDay + t.todMicros = _
      rw [httod, hmpd]
    have htwd : (t.days + 3) % 7 = W := hwd
    rw [hnowmic, htmic] at hlt
    rw [hresmic, htmic]
    omega
  · intro hbW hbH hbM hbsec hbmic
    have hntod : now.todMicros = (((H * 60 + M) * 60 * 1000000 : Nat) : Int) := by
      unfold DateTime.todMicros
      rw [hbH, hbM, hbsec, hbmic]
      push_cast
      ring
    have he7 : e = 7 := by omega
    rw [hresmic, hnowmic, hntod, he7, hmpd]
    ring

/-- C7 witness: at reference instant 2025-10-12 12:00:00 (a Sunday, weekday
6) a weekly schedule for Sunday 12:00 resolves to exactly one week later,
2025-10-19 12:00:00. -/
theorem c7_weekly_initial_minimal_witness :
    calculate_initial_run_at ⟨2025, 10, 12, 12, 0, 0, 0⟩
        ⟨some "weekly", some 6, none, some "12:00", none⟩ =
      .ok (some ⟨2025, 10, 19, 12, 0, 0, 0⟩) ∧
    DateTime.toMicros ⟨2025, 10, 19, 12, 0, 0, 0⟩ =
      DateTime.toMicros ⟨2025, 10, 12, 12, 0, 0, 0⟩ + 7 * microsPerDay := by
  obtain ⟨res, hcal, -, -, -, -, -, -, -, -, hbound⟩ :=
    c7_weekly_initial_minimal ⟨2025, 10, 12, 12, 0, 0, 0⟩ (by decide)
      ⟨some "weekly", some 6, none, some "12:00", none⟩ 6 "12:00" 12 0
      rfl rfl (by decide) (by decide) rfl (by decide)
  have hconc : calculate_initial_run_at ⟨2025, 10, 12, 12, 0, 0, 0⟩
      ⟨some "weekly", some 6, none, some "12:00", none⟩ =
      .ok (some ⟨2025, 10, 19, 12, 0, 0, 0⟩) := by decide
  have h12 := hcal.symm.trans hconc
  injection h12 with h1
  injection h1 with h2
  have hb := hbound (by decide) (by decide) (by decide) (by decide) (by decide)
  rw [h2] at hb
  exact ⟨hconc, hb⟩

theorem takeDigits1_not_digit {α : Type} (c : Char) (l : List Char)
    (h : isDigitChar c = false) (k : Nat → List Char → Option α) :
    takeDigits1 (c :: l) k = none := by
  simp [takeDigits1, spanDigits, h]

theorem weekdayNum_range {wd : List Char} {W : Int} (h : weekdayNum wd = some W) :
    0 ≤ W ∧ W < 7 := by
  unfold weekdayNum at h
  split_ifs at h <;> (injection h with h1; omega)

/-- C3 counterexample: at reference instant Friday 2025-10-10 12:00, the
next-week expression 来週月曜 9時 parses to Monday 2025-10-13 09:00 — less
than 3 days later, and strictly less than 7 days after the reference
instant, contradicting the claim that the result is always ≥ 7 days out. -/
theorem c3_next_week_counterexample :
    parse_natural_time ⟨2025, 10, 10, 12, 0, 0, 0⟩ "来週月曜 9時" =
        some (mkOnce ⟨2025, 10, 13, 9, 0, 0, 0⟩) ∧
      DateTime.toMicros ⟨2025, 10, 13, 9, 0, 0, 0⟩ <
        DateTime.toMicros ⟨2025, 10, 10, 12, 0, 0, 0⟩ + 7 * 86400000000 := by
  decide

/-- C3 (amended): a 来週 expression with recognized weekday W and time HH:MM
parses to a Once schedule on the date exactly `W - now.weekday() + 7` days
after the reference date — between 1 and 13 days ahead (the W-day of the
calendar week after the reference week) — and strictly less than 7 days
ahead whenever W is an earlier weekday than the reference instant's. -/
theorem c3_next_week_distance (now : DateTime) (hv : now.Valid)
    (rest wd tp : List Char) (W : Int) (H M : Nat)
    (hmw : matchWdTime rest = some (wd, tp))
    (hwn : weekdayNum wd = some W)
    (hhm : parse_time_with_ampm tp = some (H, M)) :
    parseCore now ('来' :: '週' :: rest) =
        some (mkOnce (withHM (addDaysI (W - now.weekday + 7) now) H M)) ∧
      (withHM (addDaysI (W - now.weekday + 7) now) H M).days =
        now.days + (W - now.weekday + 7) ∧
      1 ≤ W - now.weekday + 7 ∧ W - now.weekday + 7 ≤ 13 ∧
      (W < now.weekday → W - now.weekday + 7 < 7) := by
  obtain ⟨hW0, hW7⟩ := weekdayNum_range hwn
  obtain ⟨hnw0, hnw7⟩ := weekday_bounds now
  have hd : isDigitChar '来' = false := by decide
  have h0a : pat0a now ('来' :: '週' :: rest) = none := by
    unfold pat0a
    exact takeDigits1_not_digit _ _ hd _
  have h0b : pat0b now ('来' :: '週' :: rest) = none := by
    unfold pat0b
    exact takeDigits1_not_digit _ _ hd _
  have h0c : pat0c now ('来' :: '週' :: rest) = none := by
    unfold pat0c
    exact takeDigits1_not_digit _ _ hd _
  have h0d : pat0d now ('来' :: '週' :: rest) = none := by
    unfold pat0d
    exact takeDigits1_not_digit _ _ hd _
  have htk : ('来' :: '週' :: rest).take 2 = ['来', '週'] := rfl
  have h1 : pat1 ('来' :: '週' :: rest) = none := by
    unfold pat1
    rw [htk, if_neg (by decide : ¬ (['来', '週'] = ['毎', '週']))]
  have h2 : pat2 ('来' :: '週' :: rest) = none := by
    unfold pat2
    rw [htk, if_neg (by decide : ¬ (['来', '週'] = ['毎', '月']))]
  have h3 : pat3 now ('来' :: '週' :: rest) =
      some (some (mkOnce (withHM (addDaysI (W - now.weekday + 7) now) H M))) := by
    unfold pat3
    rw [htk, if_pos (by decide : (['来', '週'] : List Char) = ['来', '週'])]
    have hdr : List.drop 2 ('来' :: '週' :: rest) = rest := rfl
    simp only [hdr, hmw, hwn, hhm]
  have hcore : parseCore now ('来' :: '週' :: rest) =
      some (mkOnce (withHM (addDaysI (W - now.weekday + 7) now) H M)) := by
    unfold parseCore
    rw [List.findSome?_cons, List.findSome?_cons, List.findSome?_cons, List.findSome?_cons,
      List.findSome?_cons, List.findSome?_cons, List.findSome?_cons]
    simp only [id, h0a, h0b, h0c, h0d, h1, h2, h3]
    rfl
  have he0 : (0 : Int) ≤ W - now.weekday + 7 := by omega
  have hdist : (withHM (addDaysI (W - now.weekday + 7) now) H M).days =
      now.days + (W - now.weekday + 7) := by
    have hb : (withHM (addDaysI (W - now.weekday + 7) now) H M).days =
        (addDaysN (W - now.weekday + 7).toNat now).days := by
      unfold addDaysI
      rw [if_pos he0]
      rfl
    obtain ⟨-, hdd, -, -, -, -⟩ := addDaysN_spec (W - now.weekday + 7).toNat now hv
    rw [hb, hdd, Int.toNat_of_nonneg he0]
  exact ⟨hcore, hdist, by omega, by omega, by omega⟩

/-- C3 witness: the amended statement at Friday 2025-10-10 12:00 for
来週月曜 9時 (W = 0): the parsed date is exactly 3 days ahead. -/
theorem c3_next_week_distance_witness :
    parseCore ⟨2025, 10, 10, 12, 0, 0, 0⟩
        ('来' :: '週' :: ('月' :: '曜' :: ' ' :: '9' :: '時' :: [])) =
      some (mkOnce (withHM (addDaysI ((0 : Int) -
        DateTime.weekday ⟨2025, 10, 10, 12, 0, 0, 0⟩ + 7) ⟨2025, 10, 10, 12, 0, 0, 0⟩) 9 0)) ∧
    (withHM (addDaysI ((0 : Int) - DateTime.weekday ⟨2025, 10, 10, 12, 0, 0, 0⟩ + 7)
        ⟨2025, 10, 10, 12, 0, 0, 0⟩) 9 0).days =
      (⟨2025, 10, 10, 12, 0, 0, 0⟩ : DateTime).days +
        ((0 : Int) - DateTime.weekday ⟨2025, 10, 10, 12, 0, 0, 0⟩ + 7) := by
  have h := c3_next_week_distance ⟨2025, 10, 10, 12, 0, 0, 0⟩ (by decide)
    ('月' :: '曜' :: ' ' :: '9' :: '時' :: []) ('月' :: '曜' :: []) ('9' :: '時' :: [])
    0 9 0 (by decide) (by decide) (by decide)
  exact ⟨h.1, h.2.1⟩

/-- C4 counterexample: at reference instant 2025-10-12 12:00, the bare date
2020年1月1日 — a past date with no time part — is rejected (parses to
nothing), although the claim says bare-date inputs are never rejected for
resolving to an instant at or before the reference instant; the same date
in dashed form, 2020-01-01, is accepted. -/
theorem c4_bare_date_counterexample :
    parse_natural_time ⟨2025, 10, 12, 12, 0, 0, 0⟩ "2020年1月1日" = none ∧
      parse_natural_time ⟨2025, 10, 12, 12, 0, 0, 0⟩ "2020-01-01" =
        some (mkOnce ⟨2020, 1, 1, 9, 0, 0, 0⟩) := by
  decide

/-- C4 (amended): among the bare-date-only forms, `YYYY-MM-DD` applies no
reference-instant check at all (every calendar-valid date, past or future,
yields a Once at 09:00), the year-less forms `M/D` and `M月D日` apply only
the year-rollover check (their shared body `yearlessDate` never rejects a
date constructible in both years), but `YYYY年M月D日` with no time part
additionally applies the strict past-instant check and the five-year cap,
rejecting any date strictly before the reference instant. -/
theorem c4_bare_date_which_checks (now : DateTime) :
    (∀ cs y m d t, match8 cs = some (y, m, d) →
      mkDateTime (y : Int) m d 9 0 = some t →
      pat8 cs = some (some (mkOnce t))) ∧
    (∀ m d t t2, mkDateTime now.year m d 9 0 = some t →
      mkDateTime (now.year + 1) m d 9 0 = some t2 →
      yearlessDate now m d =
        some (mkOnce (if t.toMicros ≤ now.toMicros then t2 else t))) ∧
    (∀ cs m d, match9 cs = some (m, d) → pat9 now cs = some (yearlessDate now m d)) ∧
    (∀ cs m d, match10 cs = some (m, d) → pat10 now cs = some (yearlessDate now m d)) ∧
    (∀ cs y m d t, match11 cs = some (y, m, d) → (y : Int) ≤ now.year + 5 →
      mkDateTime (y : Int) m d 9 0 = some t → t.toMicros < now.toMicros →
      pat11 now cs = some none) := by
  refine ⟨?_, ?_, ?_, ?_, ?_⟩
  · intro cs y m d t h8 hmk
    unfold pat8
    simp only [h8, hmk]
  · intro m d t t2 h1 h2
    by_cases hle : t.toMicros ≤ now.toMicros
    · simp [yearlessDate, h1, h2, hle]
    · simp [yearlessDate, h1, h2, hle]
  · intro cs m d h9
    unfold pat9
    simp only [h9]
  · intro cs m d h10
    unfold pat10
    simp only [h10]
  · intro cs y m d t h11 hy hmk hpast
    unfold pat11
    simp only [h11, hmk]
    rw [if_neg (by omega : ¬ ((y : Int) > now.year + 5)), if_pos hpast]

/-- C4 witness: the amended statement instantiated — 2020-01-01 is accepted
regardless of the 2025 reference instant, 2/29 in a year where it exists
rolls correctly, and 2020年1月1日 is rejected as past. -/
theorem c4_bare_date_which_checks_witness :
    pat8 ("2020-01-01".toList) =
        some (some (mkOnce ⟨2020, 1, 1, 9, 0, 0, 0⟩)) ∧
      yearlessDate ⟨2025, 10, 12, 12, 0, 0, 0⟩ 5 1 =
        some (mkOnce (if DateTime.toMicros ⟨2025, 5, 1, 9, 0, 0, 0⟩ ≤
            DateTime.toMicros ⟨2025, 10, 12, 12, 0, 0, 0⟩ then
          (⟨2026, 5, 1, 9, 0, 0, 0⟩ : DateTime) else ⟨2025, 5, 1, 9, 0, 0, 0⟩)) ∧
      pat11 ⟨2025, 10, 12, 12, 0, 0, 0⟩ ("2020年1月1日".toList) = some none := by
  have h := c4_bare_date_which_checks ⟨2025, 10, 12, 12, 0, 0, 0⟩
  refine ⟨h.1 ("2020-01-01".toList) 2020 1 1 ⟨2020, 1, 1, 9, 0, 0, 0⟩ (by decide) (by decide),
    h.2.1 5 1 ⟨2025, 5, 1, 9, 0, 0, 0⟩ ⟨2026, 5, 1, 9, 0, 0, 0⟩ (by decide) (by decide),
    h.2.2.2.2 ("2020年1月1日".toList) 2020 1 1 ⟨2020, 1, 1, 9, 0, 0, 0⟩ (by decide) (by decide)
      (by decide) (by decide)⟩
